import Mathlib

/-!  Verification of the plan generation / execution engine of the mcpbio
repository.  The embedding models Python strings as lists of characters,
JSON-decoded Python values as the inductive type `JVal`, and Python
dictionaries as association lists in insertion order.  A Python function
that can raise an uncaught exception is modelled as returning an `Option`,
with `none` standing for the exception. -/

abbrev Str := List Char

/-- Characters removed by Python's `str.strip` (the ASCII part of Python's
whitespace class; the embedding models ASCII text). -/
def isPySpace (c : Char) : Bool :=
  c == ' ' || c == '\t' || c == '\n' || c == '\r' || c == Char.ofNat 11 || c == Char.ofNat 12

/-- Python `s.lstrip()`. -/
def pyLStrip (s : Str) : Str := s.dropWhile isPySpace

/-- Python `s.rstrip()`. -/
def pyRStrip (s : Str) : Str := (s.reverse.dropWhile isPySpace).reverse

/-- Python `s.strip()`. -/
def pyStrip (s : Str) : Str := pyRStrip (pyLStrip s)

/-- Python `s.lower()` (ASCII model of Unicode lower-casing). -/
def pyLower (s : Str) : Str := s.map Char.toLower

/-- Python `s.capitalize()`: first character upper-cased, the rest lower-cased
(ASCII model). -/
def pyCapitalize : Str → Str
  | [] => []
  | c :: rest => Char.toUpper c :: rest.map Char.toLower

/-- Python `s.endswith(c)` for a one-character suffix. -/
def strEndsWith (s : Str) (c : Char) : Bool :=
  match s.getLast? with
  | some d => d == c
  | none => false

/-- Decimal digits of `n`, most significant first (fuel-driven so that the
kernel can evaluate it; the fuel `n + 1` always suffices). -/
def natToDecAux : Nat → Nat → Str → Str
  | 0, _, acc => acc
  | fuel + 1, n, acc =>
    let d := Char.ofNat (n % 10 + 48)
    if n < 10 then d :: acc else natToDecAux fuel (n / 10) (d :: acc)

/-- Python `str(n)` for a nonnegative integer. -/
def natToDec (n : Nat) : Str := natToDecAux (n + 1) n []

/-- Index of the first occurrence of `c` in `s`, if any (Python `s.find(c)`
before its `-1` encoding). -/
def pyFindAux (c : Char) : Str → Option Nat
  | [] => none
  | a :: t => if a = c then some 0 else (pyFindAux c t).map (· + 1)

/-- Python `s.find(c)`: first index of `c`, `-1` when absent. -/
def pyFind (s : Str) (c : Char) : Int :=
  match pyFindAux c s with
  | some i => (i : Int)
  | none => -1

/-- Python `s[i:]`, including the negative-index convention: a negative `i`
counts from the end of the string, clamped at `0`. -/
def pySliceFrom (s : Str) (i : Int) : Str :=
  if i < 0 then s.drop ((s.length + i).toNat) else s.drop i.toNat

/-- A JSON value as decoded by Python's `json.loads`: objects are association
lists in key-insertion order, numbers keep their source lexeme. -/
inductive JVal where
  | null : JVal
  | bool : Bool → JVal
  | num : Str → JVal
  | str : Str → JVal
  | arr : List JVal → JVal
  | obj : List (Str × JVal) → JVal

/-- Python `d.get(key)` on a decoded JSON object. -/
def pyGet : List (Str × JVal) → Str → Option JVal
  | [], _ => none
  | (k, v) :: rest, key => if k = key then some v else pyGet rest key

/-- Python `d[key] = v`: replace the value at an existing key (keeping its
position) or append a new entry. -/
def setKV : List (Str × JVal) → Str → JVal → List (Str × JVal)
  | [], key, v => [(key, v)]
  | (k, w) :: rest, key, v =>
    if k = key then (k, v) :: rest else (k, w) :: setKV rest key v

/-- Whether a JSON number lexeme denotes zero (all mantissa digits are 0). -/
def numIsZero (lex : Str) : Bool :=
  (lex.takeWhile (fun c => !(c == 'e') && !(c == 'E'))).all (fun c => !c.isDigit || c == '0')

/-- Python truthiness of a decoded JSON value. -/
def pyTruthy : JVal → Bool
  | .null => false
  | .bool b => b
  | .num lex => !(numIsZero lex)
  | .str s => !s.isEmpty
  | .arr xs => !xs.isEmpty
  | .obj kvs => !kvs.isEmpty

/-- Python truthiness of `d.get(key)`: a missing key is `None`, hence falsy. -/
def pyTruthyOpt : Option JVal → Bool
  | none => false
  | some v => pyTruthy v

/-- Python `repr` of a decoded JSON value (string quoting/escaping inside
`repr` is modelled with plain quotes). -/
def pyRepr : JVal → Str
  | .null => "None".toList
  | .bool true => "True".toList
  | .bool false => "False".toList
  | .num lex => lex
  | .str s => Char.ofNat 39 :: s ++ [Char.ofNat 39]
  | .arr xs => '[' :: List.intercalate ", ".toList (xs.attach.map (fun x => pyRepr x.1)) ++ [']']
  | .obj kvs =>
      '{' :: List.intercalate ", ".toList
        (kvs.attach.map (fun kv =>
          (Char.ofNat 39 :: kv.1.1 ++ [Char.ofNat 39]) ++ ": ".toList ++ pyRepr kv.1.2)) ++ ['}']
decreasing_by
  · simp_wf
    have h := List.sizeOf_lt_of_mem x.2
    omega
  · simp_wf
    rcases kv with ⟨⟨k, w⟩, hm⟩
    have h := List.sizeOf_lt_of_mem hm
    simp only [Prod.mk.sizeOf_spec] at h
    simp only []
    omega

/-- Python `str(v)` of a decoded JSON value, as interpolated by an f-string. -/
def pyStr (v : JVal) : Str :=
  match v with
  | .str s => s
  | .num lex => lex
  | .bool true => "True".toList
  | .bool false => "False".toList
  | .null => "None".toList
  | v => pyRepr v

/-- JSON whitespace as skipped by Python's `json` scanner. -/
def isJsonWs (c : Char) : Bool := c == ' ' || c == '\t' || c == '\n' || c == '\r'

def skipWs (s : Str) : Str := s.dropWhile isJsonWs

def takeDigits (s : Str) : Str × Str := (s.takeWhile Char.isDigit, s.dropWhile Char.isDigit)

/-- Integer part of a JSON number: `0`, or a nonzero digit followed by digits. -/
def parseIntPart : Str → Option (Str × Str)
  | [] => none
  | c :: rest =>
    if c = '0' then some (['0'], rest)
    else if c.isDigit then
      let (ds, r) := takeDigits rest
      some (c :: ds, r)
    else none

/-- Optional fractional part `.digits` of a JSON number. -/
def parseFracPart : Str → Str × Str
  | '.' :: rest =>
    let (ds, r) := takeDigits rest
    if ds.isEmpty then ([], '.' :: rest) else ('.' :: ds, r)
  | s => ([], s)

/-- Optional exponent part `[eE][+-]?digits` of a JSON number. -/
def parseExpPart (s : Str) : Str × Str :=
  match s with
  | c :: rest =>
    if c = 'e' || c = 'E' then
      match rest with
      | d :: rest2 =>
        if d = '+' || d = '-' then
          let (ds, r) := takeDigits rest2
          if ds.isEmpty then ([], s) else (c :: d :: ds, r)
        else
          let (ds, r) := takeDigits rest
          if ds.isEmpty then ([], s) else (c :: ds, r)
      | [] => ([], s)
    else ([], s)
  | [] => ([], [])

/-- JSON number lexeme starting at `s` (the scanner's regular expression
`-?(0|[1-9]digits)(.digits)?([eE][+-]?digits)?`), with the rest of the input. -/
def parseNumberFrom (s : Str) : Option (Str × Str) :=
  match s with
  | '-' :: rest =>
    match parseIntPart rest with
    | some (ip, r1) =>
      let (fp, r2) := parseFracPart r1
      let (ep, r3) := parseExpPart r2
      some ('-' :: (ip ++ fp ++ ep), r3)
    | none => none
  | _ =>
    match parseIntPart s with
    | some (ip, r1) =>
      let (fp, r2) := parseFracPart r1
      let (ep, r3) := parseExpPart r2
      some (ip ++ fp ++ ep, r3)
    | none => none

def hexVal (c : Char) : Option Nat :=
  if c.isDigit then some (c.toNat - 48)
  else if 'a' ≤ c && c ≤ 'f' then some (c.toNat - 87)
  else if 'A' ≤ c && c ≤ 'F' then some (c.toNat - 55)
  else none

def escChar (c : Char) : Option Char :=
  if c = '"' then some '"'
  else if c = '\\' then some '\\'
  else if c = '/' then some '/'
  else if c = 'b' then some (Char.ofNat 8)
  else if c = 'f' then some (Char.ofNat 12)
  else if c = 'n' then some '\n'
  else if c = 'r' then some '\r'
  else if c = 't' then some '\t'
  else none

/-- Body of a JSON string after the opening quote, strict mode: raw control
characters are rejected, escapes decoded (`\uXXXX` as one scalar; the
pairing of UTF-16 surrogates is elided by the model). -/
def parseStringBody : Nat → Str → Option (Str × Str)
  | 0, _ => none
  | _, [] => none
  | fuel + 1, c :: rest =>
    if c = '"' then some ([], rest)
    else if c = '\\' then
      match rest with
      | [] => none
      | e :: rest2 =>
        if e = 'u' then
          match rest2 with
          | h1 :: h2 :: h3 :: h4 :: rest3 =>
            match hexVal h1, hexVal h2, hexVal h3, hexVal h4 with
            | some a, some b, some c2, some d =>
              match parseStringBody fuel rest3 with
              | some (tl, r) => some (Char.ofNat (((a * 16 + b) * 16 + c2) * 16 + d) :: tl, r)
              | none => none
            | _, _, _, _ => none
          | _ => none
        else
          match escChar e with
          | some ch =>
            match parseStringBody fuel rest2 with
            | some (tl, r) => some (ch :: tl, r)
            | none => none
          | none => none
    else if c.toNat < 32 then none
    else
      match parseStringBody fuel rest with
      | some (tl, r) => some (c :: tl, r)
      | none => none

/-- Python dict construction from parsed key/value pairs: later duplicate
keys overwrite earlier values in place. -/
def pairsToDict (pairs : List (Str × JVal)) : List (Str × JVal) :=
  pairs.foldl (fun d kv => setKV d kv.1 kv.2) []

mutual

/-- One JSON value starting at `s` (whitespace already skipped), as accepted
by Python's `json.loads`, including its `NaN`/`Infinity` extensions.  The
fuel only bounds nesting; `length + 1` always suffices. -/
def parseValue : Nat → Str → Option (JVal × Str)
  | 0, _ => none
  | fuel + 1, s =>
    match s with
    | '{' :: rest =>
      match skipWs rest with
      | '}' :: r2 => some (.obj [], r2)
      | r2 =>
        match parseMembers fuel r2 with
        | some (pairs, r3) => some (.obj (pairsToDict pairs), r3)
        | none => none
    | '[' :: rest =>
      match skipWs rest with
      | ']' :: r2 => some (.arr [], r2)
      | r2 =>
        match parseItems fuel r2 with
        | some (xs, r3) => some (.arr xs, r3)
        | none => none
    | '"' :: rest =>
      match parseStringBody (rest.length + 1) rest with
      | some (body, r) => some (.str body, r)
      | none => none
    | 't' :: 'r' :: 'u' :: 'e' :: r => some (.bool true, r)
    | 'f' :: 'a' :: 'l' :: 's' :: 'e' :: r => some (.bool false, r)
    | 'n' :: 'u' :: 'l' :: 'l' :: r => some (.null, r)
    | 'N' :: 'a' :: 'N' :: r => some (.num "NaN".toList, r)
    | 'I' :: 'n' :: 'f' :: 'i' :: 'n' :: 'i' :: 't' :: 'y' :: r => some (.num "Infinity".toList, r)
    | '-' :: 'I' :: 'n' :: 'f' :: 'i' :: 'n' :: 'i' :: 't' :: 'y' :: r => some (.num "-Infinity".toList, r)
    | s => (parseNumberFrom s).map (fun nr => (.num nr.1, nr.2))

/-- Members of a JSON object after the opening brace (at a key position,
whitespace skipped), returning the raw pair list. -/
def parseMembers : Nat → Str → Option (List (Str × JVal) × Str)
  | 0, _ => none
  | fuel + 1, s =>
    match s with
    | '"' :: rest =>
      match parseStringBody (rest.length + 1) rest with
      | some (key, r1) =>
        match skipWs r1 with
        | ':' :: r2 =>
          match parseValue fuel (skipWs r2) with
          | some (v, r3) =>
            match skipWs r3 with
            | ',' :: r4 =>
              match parseMembers fuel (skipWs r4) with
              | some (pairs, r5) => some ((key, v) :: pairs, r5)
              | none => none
            | '}' :: r4 => some ([(key, v)], r4)
            | _ => none
          | none => none
        | _ => none
      | none => none
    | _ => none

/-- Items of a JSON array after the opening bracket (at a value position,
whitespace skipped). -/
def parseItems : Nat → Str → Option (List JVal × Str)
  | 0, _ => none
  | fuel + 1, s =>
    match parseValue fuel s with
    | some (v, r1) =>
      match skipWs r1 with
      | ',' :: r2 =>
        match parseItems fuel (skipWs r2) with
        | some (xs, r3) => some (v :: xs, r3)
        | none => none
      | ']' :: r2 => some ([v], r2)
      | _ => none
    | none => none

end

/-- Python `json.loads`: one JSON value, surrounding whitespace allowed,
anything left over is an error (`None` in the model). -/
def json_loads (s : Str) : Option JVal :=
  match parseValue (s.length + 1) (skipWs s) with
  | some (v, rest) => if (skipWs rest).isEmpty then some v else none
  | none => none

/-- The post-processing of the model response in `generate_bio_plan`
(src/mcp_agent/plan.py lines 234-242): take the substring from the first
brace (Python slicing: with no brace, `find` gives `-1` and the slice keeps
only the last character) and try `json.loads` on it. -/
def extractJson (output : Str) : Str := pySliceFrom output (pyFind output '\x7b')

/-- `generate_bio_plan` as a function of the raw model response (the network
call itself is the external input): `json.loads` of the extracted substring,
`none` modelling the `except` branch that returns `None`. -/
def generate_bio_plan (output : Str) : Option JVal := json_loads (extractJson output)

/-- The static rationale table `STEPS_ENRICHMENT` of src/mcp_agent/plan.py. -/
def STEPS_ENRICHMENT : List (Str × Str) :=
  [("clinvar".toList, "This helps understand the medical relevance of the variant.".toList),
   ("drugbank".toList, "This could highlight therapeutic opportunities.".toList),
   ("uniprot".toList, "This reveals key information about the protein’s role and function.".toList),
   ("string".toList, "This helps identify interacting proteins and broader functional networks.".toList),
   ("chembl".toList, "This may uncover experimental compounds or drugs under development.".toList),
   ("kegg".toList, "This provides insight into the biological pathways the gene participates in.".toList)]

/-- Python `d.get(key)` on the enrichment table. -/
def lookupStr : List (Str × Str) → Str → Option Str
  | [], _ => none
  | (k, v) :: rest, key => if k = key then some v else lookupStr rest key

/-- The fixed heading of one rendered step:  `**Step {i} – Querying {db_name}**`
followed by a newline. -/
def stepHeader (i : Nat) (dbName : Str) : Str :=
  "**Step ".toList ++ natToDec i ++ " – Querying ".toList ++ dbName ++ "**\n".toList

/-- The fixed message `explain_personalized_steps` returns for a plan with no
steps. -/
def noStepsMsg : Str := "No steps were found in the planning output.".toList

/-- The body of the `for` loop of `explain_personalized_steps` for the step
with 1-based index `i`; `none` models an uncaught exception (`.get` on a
non-dict step, `.strip` on a non-string field). -/
def explainStep (i : Nat) (step : JVal) : Option Str :=
  match step with
  | .obj skvs =>
    match (pyGet skvs "action".toList).getD (.str []) with
    | .str a0 =>
      let db := pyLower (pyStrip a0)
      let dbName := pyCapitalize db
      match (pyGet skvs "description".toList).getD (.str []) with
      | .str d0 =>
        let description0 := pyStrip d0
        let description :=
          if strEndsWith description0 '.' then description0 else description0 ++ ['.']
        let extra0 := (lookupStr STEPS_ENRICHMENT db).getD []
        let extra :=
          if !extra0.isEmpty && !(strEndsWith extra0 '.') then extra0 ++ ['.'] else extra0
        some (pyStrip (stepHeader i dbName ++ description ++ [' '] ++ extra))
      | _ => none
    | _ => none
  | _ => none

/-- The loop of `explain_personalized_steps` over `enumerate(steps, 1)`. -/
def explainStepsFrom (i : Nat) : List JVal → Option (List Str)
  | [] => some []
  | s :: rest =>
    match explainStep i s with
    | none => none
    | some t =>
      match explainStepsFrom (i + 1) rest with
      | some ts => some (t :: ts)
      | none => none

/-- `explain_personalized_steps` of src/mcp_agent/plan.py: the no-steps
message on a falsy `steps` value, otherwise the rendered steps joined by
blank lines.  `none` models an uncaught exception (non-dict plan, or a
truthy non-list `steps` value whose iteration crashes on `.get`). -/
def explain_personalized_steps (plan : JVal) : Option Str :=
  match plan with
  | .obj kvs =>
    let steps := (pyGet kvs "steps".toList).getD (.arr [])
    if !(pyTruthy steps) then some noStepsMsg
    else
      match steps with
      | .arr xs =>
        match explainStepsFrom 1 xs with
        | some ts => some (List.intercalate "\n\n".toList ts)
        | none => none
      | _ => none
  | _ => none

/-- A step result of the form `{"error": msg}`. -/
def errObj (msg : Str) : JVal := .obj [("error".toList, .str msg)]

/-- The two KEGG data-source adapter functions of src/kegg_mcp/kegg.py,
treated as an external collaborator (they perform network calls):
`get_pathway_id` returns an optional id/description pair, and
`get_pathway_proteins` a list of decoded protein records. -/
structure Adapter where
  get_pathway_id : JVal → JVal → Option Str × Option Str
  get_pathway_proteins : JVal → JVal → List JVal

/-- One recorded adapter invocation (the instrumentation that lets theorems
speak about which adapter calls a step performs). -/
inductive AdapterCall where
  | get_pathway_id : JVal → JVal → AdapterCall
  | get_pathway_proteins : JVal → JVal → AdapterCall

/-- Python `not pathway_id` for the adapter's `Optional[str]` result. -/
def optStrFalsy : Option Str → Bool
  | none => true
  | some s => s.isEmpty

/-- The `function == "get_pathway_id"` branch of `execute_bio_plan`
(src/mcp_agent/plan.py lines 254-269), with the appended results and the
adapter calls it performs. -/
def execKeggGetPathwayId (ad : Adapter) (ps : List (Str × JVal)) :
    List JVal × List AdapterCall :=
  let organism := (pyGet ps "organism".toList).getD (.str "hsa".toList)
  match pyGet ps "pathway_name".toList with
  | none => ([errObj "Missing 'pathway_name' for get_pathway_id".toList], [])
  | some pn =>
    if !(pyTruthy pn) then
      ([errObj "Missing 'pathway_name' for get_pathway_id".toList], [])
    else
      match ad.get_pathway_id pn organism with
      | (none, _) =>
        ([errObj ("No pathway found for: ".toList ++ pyStr pn)],
         [AdapterCall.get_pathway_id pn organism])
      | (some pid, desc) =>
        if pid.isEmpty then
          ([errObj ("No pathway found for: ".toList ++ pyStr pn)],
           [AdapterCall.get_pathway_id pn organism])
        else
          ([JVal.obj [("pathway_id".toList, .str pid),
                      ("description".toList, desc.elim JVal.null JVal.str)]],
           [AdapterCall.get_pathway_id pn organism])

/-- The `function == "get_pathway_proteins"` branch of `execute_bio_plan`
(src/mcp_agent/plan.py lines 271-283). -/
def execKeggGetProteins (ad : Adapter) (ps : List (Str × JVal)) :
    List JVal × List AdapterCall :=
  let organism := (pyGet ps "organism".toList).getD (.str "hsa".toList)
  match pyGet ps "pathway_id".toList with
  | none => ([errObj "Missing 'pathway_id' for get_pathway_proteins".toList], [])
  | some pid =>
    if !(pyTruthy pid) then
      ([errObj "Missing 'pathway_id' for get_pathway_proteins".toList], [])
    else
      let proteins := ad.get_pathway_proteins pid organism
      ([JVal.obj [("pathway_id".toList, pid),
                  ("protein_count".toList, .num (natToDec proteins.length)),
                  ("top_proteins".toList, .arr (proteins.take 5))]],
       [AdapterCall.get_pathway_proteins pid organism])

/-- The string `"kegg"` compared against the lower-cased `action`. -/
def sKegg : Str := "kegg".toList

/-- The string `"get_pathway_id"` compared against the lower-cased `function`. -/
def sGetPathwayId : Str := "get_pathway_id".toList

/-- The string `"get_pathway_proteins"` compared against the lower-cased
`function`. -/
def sGetPathwayProteins : Str := "get_pathway_proteins".toList

/-- The dispatch of one loop iteration of `execute_bio_plan` after the
lower-cased `action` and `function` fields have been read. -/
def execStepCore (ad : Adapter) (action : Str) (ps : List (Str × JVal)) (function : Str) :
    List JVal × List AdapterCall :=
  if action = sKegg then
    if function = sGetPathwayId then execKeggGetPathwayId ad ps
    else if function = sGetPathwayProteins then execKeggGetProteins ad ps
    else ([errObj ("Unknown KEGG function: ".toList ++ function)], [])
  else ([], [])

/-- One loop iteration of `execute_bio_plan` on a step value: read
`action` (default `""`, lower-cased), `params` (default `{}`) and
`params["function"]` (default `""`, lower-cased) exactly as lines 249-251 do,
then dispatch.  `none` models an uncaught exception (non-dict step, non-string
`action`/`function`, non-dict `params`). -/
def execStep (ad : Adapter) (step : JVal) : Option (List JVal × List AdapterCall) :=
  match step with
  | .obj skvs =>
    match (pyGet skvs "action".toList).getD (.str []) with
    | .str a =>
      match (pyGet skvs "params".toList).getD (.obj []) with
      | .obj ps =>
        match (pyGet ps "function".toList).getD (.str []) with
        | .str f => some (execStepCore ad (pyLower a) ps (pyLower f))
        | _ => none
      | _ => none
    | _ => none
  | _ => none

/-- The `for step in plan.get("steps", [])` loop of `execute_bio_plan`,
accumulating the appended results and the adapter invocations in order. -/
def execSteps (ad : Adapter) : List JVal → Option (List JVal × List AdapterCall)
  | [] => some ([], [])
  | s :: rest =>
    match execStep ad s with
    | none => none
    | some (out, calls) =>
      match execSteps ad rest with
      | none => none
      | some (outs, callss) => some (out ++ outs, calls ++ callss)

/-- `execute_bio_plan` of src/mcp_agent/plan.py (lines 245-290), instrumented
with the trace of adapter invocations.  A missing `steps` key defaults to the
empty list; a truthy non-list `steps` value crashes when iterated (except the
empty string and empty dict, which Python iterates zero times). -/
def execute_bio_plan (ad : Adapter) (plan : JVal) : Option (List JVal × List AdapterCall) :=
  match plan with
  | .obj kvs =>
    match (pyGet kvs "steps".toList).getD (.arr []) with
    | .arr steps => execSteps ad steps
    | .str s => if s.isEmpty then some ([], []) else none
    | .obj kvs2 => if kvs2.isEmpty then some ([], []) else none
    | _ => none
  | _ => none

/-- `protein.strip().lower()`, the normalization applied to every entry of
both lists by `get_proteins_that_are_in_too_lists`. -/
def normalizeProtein (s : Str) : Str := pyLower (pyStrip s)

/-- `get_proteins_that_are_in_too_lists` of src/kegg_mcp/functional_mcp.py
(also in src/kegg_mcp/weather.py): both lists are normalized into sets and
intersected.  Python returns `list(...)` of the set in unspecified order, so
the model keeps the set itself. -/
def get_proteins_that_are_in_too_lists (protein_list_1 protein_list_2 : List Str) :
    Finset Str :=
  (protein_list_1.map normalizeProtein).toFinset ∩
    (protein_list_2.map normalizeProtein).toFinset

/-- Whether a step value would be dispatched to the KEGG branch: its
`action` field (default `""`) is a string that lower-cases to `"kegg"`. -/
def stepIsKegg (step : JVal) : Bool :=
  match step with
  | .obj skvs =>
    match (pyGet skvs "action".toList).getD (.str []) with
    | .str a => decide (pyLower a = sKegg)
    | _ => false
  | _ => false

/-- An adapter whose pathway lookup finds nothing and whose protein listing
is empty (KEGG unreachable), used to evaluate the executor on concrete plans. -/
def dummyAdapter : Adapter :=
  { get_pathway_id := fun _ _ => (none, none),
    get_pathway_proteins := fun _ _ => [] }

/-- An adapter whose protein listing returns seven records. -/
def sevenAdapter : Adapter :=
  { get_pathway_id := fun _ _ => (none, none),
    get_pathway_proteins := fun _ _ =>
      [.str "p1".toList, .str "p2".toList, .str "p3".toList, .str "p4".toList,
       .str "p5".toList, .str "p6".toList, .str "p7".toList] }


theorem pyGet_setKV_self (kvs : List (Str × JVal)) (k : Str) (v : JVal) :
    pyGet (setKV kvs k v) k = some v := by
  induction kvs with
  | nil => simp [setKV, pyGet]
  | cons kv rest ih =>
    obtain ⟨k0, v0⟩ := kv
    by_cases h : k0 = k
    · subst h
      simp [setKV, pyGet]
    · simp [setKV, pyGet, h, ih]

theorem pyGet_setKV_ne (kvs : List (Str × JVal)) (k k' : Str) (v : JVal)
    (h : k' ≠ k) : pyGet (setKV kvs k v) k' = pyGet kvs k' := by
  have hkk : ¬k = k' := fun hh => h hh.symm
  induction kvs with
  | nil => simp [setKV, pyGet, hkk]
  | cons kv rest ih =>
    obtain ⟨k0, v0⟩ := kv
    by_cases h0 : k0 = k
    · subst h0
      simp [setKV, pyGet, hkk]
    · by_cases h1 : k0 = k'
      · simp [setKV, pyGet, h0, h1, h]
      · simp [setKV, pyGet, h0, h1, ih]

theorem execKeggGetPathwayId_length (ad : Adapter) (ps : List (Str × JVal)) :
    (execKeggGetPathwayId ad ps).1.length = 1 := by
  unfold execKeggGetPathwayId
  dsimp only
  repeat' split
  all_goals rfl

theorem execKeggGetProteins_length (ad : Adapter) (ps : List (Str × JVal)) :
    (execKeggGetProteins ad ps).1.length = 1 := by
  unfold execKeggGetProteins
  dsimp only
  repeat' split
  all_goals rfl

theorem execStepCore_length (ad : Adapter) (action : Str) (ps : List (Str × JVal))
    (function : Str) :
    (execStepCore ad action ps function).1.length =
      if action = sKegg then 1 else 0 := by
  unfold execStepCore
  by_cases h : action = sKegg
  · rw [if_pos h, if_pos h]
    split
    · exact execKeggGetPathwayId_length ad ps
    · split
      · exact execKeggGetProteins_length ad ps
      · rfl
  · rw [if_neg h, if_neg h]
    rfl

theorem execStep_obj (ad : Adapter) (skvs ps : List (Str × JVal)) (a f : Str)
    (ha : (pyGet skvs "action".toList).getD (.str []) = .str a)
    (hp : (pyGet skvs "params".toList).getD (.obj []) = .obj ps)
    (hf : (pyGet ps "function".toList).getD (.str []) = .str f) :
    execStep ad (.obj skvs) = some (execStepCore ad (pyLower a) ps (pyLower f)) := by
  simp only [execStep, ha, hp, hf]

theorem execStep_some_inv (ad : Adapter) (step : JVal) (r : List JVal × List AdapterCall)
    (h : execStep ad step = some r) :
    ∃ skvs a ps f, step = JVal.obj skvs ∧
      (pyGet skvs "action".toList).getD (.str []) = .str a ∧
      (pyGet skvs "params".toList).getD (.obj []) = .obj ps ∧
      (pyGet ps "function".toList).getD (.str []) = .str f ∧
      r = execStepCore ad (pyLower a) ps (pyLower f) := by
  cases step with
  | obj skvs =>
    simp only [execStep] at h
    split at h
    · rename_i a ha
      split at h
      · rename_i ps hp
        split at h
        · rename_i f hf
          exact ⟨skvs, a, ps, f, rfl, ha, hp, hf, (Option.some.inj h).symm⟩
        · exact absurd h (by simp)
      · exact absurd h (by simp)
    · exact absurd h (by simp)
  | null => exact Option.noConfusion h
  | bool b => exact Option.noConfusion h
  | num n => exact Option.noConfusion h
  | str s => exact Option.noConfusion h
  | arr xs => exact Option.noConfusion h

theorem execStep_some_length (ad : Adapter) (step : JVal) (out : List JVal)
    (calls : List AdapterCall) (h : execStep ad step = some (out, calls)) :
    out.length = if stepIsKegg step then 1 else 0 := by
  obtain ⟨skvs, a, ps, f, hstep, ha, hp, hf, hr⟩ := execStep_some_inv ad step _ h
  subst hstep
  have hout : out = (execStepCore ad (pyLower a) ps (pyLower f)).1 := by rw [← hr]
  rw [hout, execStepCore_length]
  simp only [stepIsKegg, ha]
  by_cases hk : pyLower a = sKegg
  · simp [hk]
  · simp [hk]

theorem execSteps_some_length (ad : Adapter) :
    ∀ (steps : List JVal) (res : List JVal × List AdapterCall),
      execSteps ad steps = some res → res.1.length = steps.countP stepIsKegg := by
  intro steps
  induction steps with
  | nil =>
    intro res h
    simp only [execSteps, Option.some.injEq] at h
    rw [← h]
    simp
  | cons s rest ih =>
    intro res h
    simp only [execSteps] at h
    cases hs : execStep ad s with
    | none => rw [hs] at h; exact absurd h (by simp)
    | some oc =>
      obtain ⟨out, calls⟩ := oc
      rw [hs] at h
      cases hr : execSteps ad rest with
      | none => rw [hr] at h; exact absurd h (by simp)
      | some oc2 =>
        obtain ⟨outs, callss⟩ := oc2
        rw [hr] at h
        simp only [Option.some.injEq] at h
        rw [← h]
        have h1 := execStep_some_length ad s out calls hs
        have h2 := ih (outs, callss) hr
        simp only [List.length_append, List.countP_cons, h1, h2]
        omega

theorem execSteps_join (ad : Adapter) (steps : List JVal)
    (outs : JVal → List JVal × List AdapterCall)
    (h : ∀ s ∈ steps, execStep ad s = some (outs s)) :
    execSteps ad steps =
      some ((steps.map (fun s => (outs s).1)).flatten,
            (steps.map (fun s => (outs s).2)).flatten) := by
  induction steps with
  | nil => simp [execSteps]
  | cons s rest ih =>
    have hs := h s (List.mem_cons_self s rest)
    have hr := ih (fun t ht => h t (List.mem_cons_of_mem s ht))
    simp only [execSteps, hs, hr, List.map_cons, List.flatten_cons]

theorem exec_plan_steps (ad : Adapter) (kvs : List (Str × JVal)) (steps : List JVal)
    (hsteps : (pyGet kvs "steps".toList).getD (.arr []) = .arr steps) :
    execute_bio_plan ad (.obj kvs) = execSteps ad steps := by
  simp only [execute_bio_plan, hsteps]

theorem execKeggGetPathwayId_congr (ad : Adapter) (ps1 ps2 : List (Str × JVal))
    (h : ∀ k, k ≠ "function".toList → pyGet ps1 k = pyGet ps2 k) :
    execKeggGetPathwayId ad ps1 = execKeggGetPathwayId ad ps2 := by
  unfold execKeggGetPathwayId
  rw [h ("organism".toList) (by decide), h ("pathway_name".toList) (by decide)]

theorem execKeggGetProteins_congr (ad : Adapter) (ps1 ps2 : List (Str × JVal))
    (h : ∀ k, k ≠ "function".toList → pyGet ps1 k = pyGet ps2 k) :
    execKeggGetProteins ad ps1 = execKeggGetProteins ad ps2 := by
  unfold execKeggGetProteins
  rw [h ("organism".toList) (by decide), h ("pathway_id".toList) (by decide)]

theorem execStepCore_congr (ad : Adapter) (action f : Str) (ps1 ps2 : List (Str × JVal))
    (h : ∀ k, k ≠ "function".toList → pyGet ps1 k = pyGet ps2 k) :
    execStepCore ad action ps1 f = execStepCore ad action ps2 f := by
  unfold execStepCore
  by_cases hk : action = sKegg
  · rw [if_pos hk, if_pos hk]
    by_cases h1 : f = sGetPathwayId
    · rw [if_pos h1, if_pos h1]
      exact execKeggGetPathwayId_congr ad ps1 ps2 h
    · rw [if_neg h1, if_neg h1]
      by_cases h2 : f = sGetPathwayProteins
      · rw [if_pos h2, if_pos h2]
        exact execKeggGetProteins_congr ad ps1 ps2 h
      · rw [if_neg h2, if_neg h2]
  · rw [if_neg hk, if_neg hk]

theorem execStep_case_variant (ad : Adapter) (skvs ps : List (Str × JVal)) (a a' f f' : Str)
    (ha : (pyGet skvs "action".toList).getD (.str []) = .str a)
    (hp : (pyGet skvs "params".toList).getD (.obj []) = .obj ps)
    (hf : (pyGet ps "function".toList).getD (.str []) = .str f)
    (ha' : pyLower a' = pyLower a) (hf' : pyLower f' = pyLower f) :
    execStep ad (.obj (setKV (setKV skvs "params".toList
        (.obj (setKV ps "function".toList (.str f')))) "action".toList (.str a')))
      = execStep ad (.obj skvs) := by
  have h1 : (pyGet (setKV (setKV skvs "params".toList
      (.obj (setKV ps "function".toList (.str f')))) "action".toList (.str a'))
      "action".toList).getD (.str []) = .str a' := by
    rw [pyGet_setKV_self]
    rfl
  have h2 : (pyGet (setKV (setKV skvs "params".toList
      (.obj (setKV ps "function".toList (.str f')))) "action".toList (.str a'))
      "params".toList).getD (.obj []) = .obj (setKV ps "function".toList (.str f')) := by
    rw [pyGet_setKV_ne _ _ _ _ (by decide), pyGet_setKV_self]
    rfl
  have h3 : (pyGet (setKV ps "function".toList (.str f')) "function".toList).getD (.str [])
      = .str f' := by
    rw [pyGet_setKV_self]
    rfl
  rw [execStep_obj ad _ _ _ _ h1 h2 h3, execStep_obj ad skvs ps a f ha hp hf, ha', hf']
  exact congrArg some (execStepCore_congr ad (pyLower a) (pyLower f) _ ps
    (fun k hk => pyGet_setKV_ne ps "function".toList k (.str f') hk))

theorem execSteps_set (ad : Adapter) :
    ∀ (steps : List JVal) (i : Nat) (snew sold : JVal),
      steps[i]? = some sold → execStep ad snew = execStep ad sold →
      execSteps ad (steps.set i snew) = execSteps ad steps := by
  intro steps
  induction steps with
  | nil =>
    intro i snew sold hold
    simp at hold
  | cons s rest ih =>
    intro i snew sold hold heq
    cases i with
    | zero =>
      simp only [List.getElem?_cons_zero, Option.some.injEq] at hold
      subst hold
      simp only [List.set_cons_zero, execSteps, heq]
    | succ j =>
      simp only [List.getElem?_cons_succ] at hold
      simp only [List.set_cons_succ, execSteps, ih j snew sold hold heq]

/-- C1 (corrected): for every plan whose execution completes, `execute_bio_plan`
produces exactly one result entry per step whose lower-cased `action` is
`"kegg"` — and no entry at all for any other step — so the report's length is
the number of kegg steps, not the plan's step count. -/
theorem C1_report_length_counts_kegg_steps (ad : Adapter) (kvs : List (Str × JVal))
    (steps : List JVal) (results : List JVal) (calls : List AdapterCall)
    (hsteps : (pyGet kvs "steps".toList).getD (.arr []) = .arr steps)
    (hrun : execute_bio_plan ad (.obj kvs) = some (results, calls)) :
    results.length = steps.countP stepIsKegg := by
  rw [exec_plan_steps ad kvs steps hsteps] at hrun
  exact execSteps_some_length ad steps (results, calls) hrun

/-- Witness for C1: a two-step plan (one kegg step with an unknown function,
one uniprot step) produces a one-entry report, the count of its kegg steps. -/
theorem C1_report_length_counts_kegg_steps_witness :
    ([errObj ("Unknown KEGG function: bogus".toList)] : List JVal).length
      = List.countP stepIsKegg
          [JVal.obj [("action".toList, JVal.str "kegg".toList),
                     ("params".toList, JVal.obj [("function".toList, JVal.str "bogus".toList)])],
           JVal.obj [("action".toList, JVal.str "uniprot".toList)]] :=
  C1_report_length_counts_kegg_steps dummyAdapter
    [("steps".toList, JVal.arr
        [JVal.obj [("action".toList, JVal.str "kegg".toList),
                   ("params".toList, JVal.obj [("function".toList, JVal.str "bogus".toList)])],
         JVal.obj [("action".toList, JVal.str "uniprot".toList)]])]
    [JVal.obj [("action".toList, JVal.str "kegg".toList),
               ("params".toList, JVal.obj [("function".toList, JVal.str "bogus".toList)])],
     JVal.obj [("action".toList, JVal.str "uniprot".toList)]]
    [errObj ("Unknown KEGG function: bogus".toList)] [] rfl rfl

/-- Counterexample to C1 as stated: a plan with one step whose action is
`"uniprot"` executes to an empty report — 0 results for 1 step, and no error
entry records the skipped step. -/
theorem C1_counterexample_skipped_step_unrecorded :
    execute_bio_plan dummyAdapter (JVal.obj [("steps".toList,
        JVal.arr [JVal.obj [("action".toList, JVal.str "uniprot".toList)]])])
      = some ([], [])
    ∧ ([] : List JVal).length
        ≠ [JVal.obj [("action".toList, JVal.str "uniprot".toList)]].length :=
  ⟨rfl, by decide⟩

/-- C2 (corrected): a kegg step whose `function` resolves to no known KEGG
function yields an `{"error": "Unknown KEGG function: ..."}` result and no
adapter call; a step whose lower-cased action is not `"kegg"` yields no result
entry at all; in both cases execution continues with the remaining steps
(no abort). -/
theorem C2_unresolved_step_behavior :
    (∀ (ad : Adapter) (skvs ps : List (Str × JVal)) (a f : Str),
        (pyGet skvs "action".toList).getD (.str []) = .str a →
        pyLower a = sKegg →
        (pyGet skvs "params".toList).getD (.obj []) = .obj ps →
        (pyGet ps "function".toList).getD (.str []) = .str f →
        pyLower f ≠ sGetPathwayId →
        pyLower f ≠ sGetPathwayProteins →
        execStep ad (.obj skvs)
          = some ([errObj ("Unknown KEGG function: ".toList ++ pyLower f)], []))
    ∧ (∀ (ad : Adapter) (skvs ps : List (Str × JVal)) (a f : Str),
        (pyGet skvs "action".toList).getD (.str []) = .str a →
        pyLower a ≠ sKegg →
        (pyGet skvs "params".toList).getD (.obj []) = .obj ps →
        (pyGet ps "function".toList).getD (.str []) = .str f →
        execStep ad (.obj skvs) = some ([], []))
    ∧ (∀ (ad : Adapter) (s : JVal) (rest : List JVal) (out outs : List JVal)
          (calls callss : List AdapterCall),
        execStep ad s = some (out, calls) →
        execSteps ad rest = some (outs, callss) →
        execSteps ad (s :: rest) = some (out ++ outs, calls ++ callss)) := by
  refine ⟨?_, ?_, ?_⟩
  · intro ad skvs ps a f ha hk hp hf h1 h2
    rw [execStep_obj ad skvs ps a f ha hp hf, hk]
    unfold execStepCore
    rw [if_pos rfl, if_neg h1, if_neg h2]
  · intro ad skvs ps a f ha hk hp hf
    rw [execStep_obj ad skvs ps a f ha hp hf]
    unfold execStepCore
    rw [if_neg hk]
  · intro ad s rest out outs calls callss h1 h2
    simp only [execSteps, h1, h2]

/-- Witness for C2: the three parts instantiated on concrete steps — an
unknown KEGG function errors, a uniprot step is silently skipped, and a
two-step list concatenates per-step outputs. -/
theorem C2_unresolved_step_behavior_witness :
    execStep dummyAdapter (JVal.obj [("action".toList, JVal.str "kegg".toList),
        ("params".toList, JVal.obj [("function".toList, JVal.str "bogus".toList)])])
      = some ([errObj ("Unknown KEGG function: ".toList ++ pyLower "bogus".toList)], [])
    ∧ execStep dummyAdapter (JVal.obj [("action".toList, JVal.str "uniprot".toList)])
        = some ([], [])
    ∧ execSteps dummyAdapter [JVal.obj [("action".toList, JVal.str "uniprot".toList)]]
        = some ([] ++ [], [] ++ []) :=
  ⟨C2_unresolved_step_behavior.1 dummyAdapter _ _ "kegg".toList "bogus".toList
      rfl rfl rfl rfl (by decide) (by decide),
   C2_unresolved_step_behavior.2.1 dummyAdapter _ [] "uniprot".toList []
      rfl (by decide) rfl rfl,
   C2_unresolved_step_behavior.2.2 dummyAdapter
      (JVal.obj [("action".toList, JVal.str "uniprot".toList)]) [] [] [] [] []
      (C2_unresolved_step_behavior.2.1 dummyAdapter _ [] "uniprot".toList []
        rfl (by decide) rfl rfl) rfl⟩

/-- Counterexample to C2 as stated: in a two-step plan whose first step names
the unknown tool "uniprot", the report contains no error entry for that step —
only the second (kegg) step's entry appears, so the report has one entry, not
two. -/
theorem C2_counterexample_unknown_tool_no_error :
    execute_bio_plan dummyAdapter (JVal.obj [("steps".toList, JVal.arr
        [JVal.obj [("action".toList, JVal.str "uniprot".toList)],
         JVal.obj [("action".toList, JVal.str "kegg".toList),
                   ("params".toList, JVal.obj
                      [("function".toList, JVal.str "get_pathway_id".toList),
                       ("pathway_name".toList, JVal.str "apoptosis".toList)])]])])
      = some ([errObj ("No pathway found for: apoptosis".toList)],
              [AdapterCall.get_pathway_id (JVal.str "apoptosis".toList)
                 (JVal.str "hsa".toList)])
    ∧ (1 : Nat) ≠ 2 :=
  ⟨rfl, by decide⟩

/-- C3 (confirmed): a kegg `get_pathway_id` step without a (truthy)
`pathway_name`, or a kegg `get_pathway_proteins` step without a (truthy)
`pathway_id`, yields an error result naming the missing parameter, and no
adapter call is made for that step, for any adapter. -/
theorem C3_missing_param_error_no_adapter_call :
    (∀ (ad : Adapter) (skvs ps : List (Str × JVal)) (a f : Str),
        (pyGet skvs "action".toList).getD (.str []) = .str a →
        pyLower a = sKegg →
        (pyGet skvs "params".toList).getD (.obj []) = .obj ps →
        (pyGet ps "function".toList).getD (.str []) = .str f →
        pyLower f = sGetPathwayId →
        pyTruthyOpt (pyGet ps "pathway_name".toList) = false →
        execStep ad (.obj skvs)
          = some ([errObj "Missing 'pathway_name' for get_pathway_id".toList], []))
    ∧ (∀ (ad : Adapter) (skvs ps : List (Str × JVal)) (a f : Str),
        (pyGet skvs "action".toList).getD (.str []) = .str a →
        pyLower a = sKegg →
        (pyGet skvs "params".toList).getD (.obj []) = .obj ps →
        (pyGet ps "function".toList).getD (.str []) = .str f →
        pyLower f = sGetPathwayProteins →
        pyTruthyOpt (pyGet ps "pathway_id".toList) = false →
        execStep ad (.obj skvs)
          = some ([errObj "Missing 'pathway_id' for get_pathway_proteins".toList], [])) := by
  constructor
  · intro ad skvs ps a f ha hk hp hf hfk hmiss
    rw [execStep_obj ad skvs ps a f ha hp hf, hk, hfk]
    unfold execStepCore
    rw [if_pos rfl, if_pos rfl]
    cases hpn : pyGet ps "pathway_name".toList with
    | none =>
      unfold execKeggGetPathwayId
      dsimp only
      rw [hpn]
    | some pn =>
      rw [hpn] at hmiss
      simp only [pyTruthyOpt] at hmiss
      unfold execKeggGetPathwayId
      dsimp only
      rw [hpn]
      simp only [hmiss, Bool.not_false, if_true]
  · intro ad skvs ps a f ha hk hp hf hfk hmiss
    rw [execStep_obj ad skvs ps a f ha hp hf, hk, hfk]
    unfold execStepCore
    rw [if_pos rfl, if_neg (by decide), if_pos rfl]
    cases hpn : pyGet ps "pathway_id".toList with
    | none =>
      unfold execKeggGetProteins
      dsimp only
      rw [hpn]
    | some pid =>
      rw [hpn] at hmiss
      simp only [pyTruthyOpt] at hmiss
      unfold execKeggGetProteins
      dsimp only
      rw [hpn]
      simp only [hmiss, Bool.not_false, if_true]

/-- Witness for C3: concrete kegg steps lacking `pathway_name` respectively
`pathway_id` produce exactly the naming error result with no adapter call. -/
theorem C3_missing_param_error_no_adapter_call_witness :
    execStep dummyAdapter (JVal.obj [("action".toList, JVal.str "kegg".toList),
        ("params".toList, JVal.obj [("function".toList, JVal.str "get_pathway_id".toList)])])
      = some ([errObj "Missing 'pathway_name' for get_pathway_id".toList], [])
    ∧ execStep dummyAdapter (JVal.obj [("action".toList, JVal.str "kegg".toList),
        ("params".toList, JVal.obj
           [("function".toList, JVal.str "get_pathway_proteins".toList),
            ("pathway_id".toList, JVal.str [])])])
      = some ([errObj "Missing 'pathway_id' for get_pathway_proteins".toList], []) :=
  ⟨C3_missing_param_error_no_adapter_call.1 dummyAdapter _ _
      "kegg".toList "get_pathway_id".toList rfl rfl rfl rfl rfl rfl,
   C3_missing_param_error_no_adapter_call.2 dummyAdapter _ _
      "kegg".toList "get_pathway_proteins".toList rfl rfl rfl rfl rfl rfl⟩

/-- C8 (confirmed): execution is a single ordered pass — when every step of
the plan processes to a result, `execute_bio_plan` returns exactly the
concatenation, in step order, of each step's output and adapter-call trace,
each step contributing exactly once (and the function is total, so it always
terminates). -/
theorem C8_single_ordered_pass (ad : Adapter) (kvs : List (Str × JVal))
    (steps : List JVal) (outs : JVal → List JVal × List AdapterCall)
    (hsteps : (pyGet kvs "steps".toList).getD (.arr []) = .arr steps)
    (hall : ∀ s ∈ steps, execStep ad s = some (outs s)) :
    execute_bio_plan ad (.obj kvs)
      = some ((steps.map (fun s => (outs s).1)).flatten,
              (steps.map (fun s => (outs s).2)).flatten) := by
  rw [exec_plan_steps ad kvs steps hsteps]
  exact execSteps_join ad steps outs hall

/-- Witness for C8: a concrete two-step plan executes to the concatenation of
its two per-step outputs, in order. -/
theorem C8_single_ordered_pass_witness :
    execute_bio_plan dummyAdapter (JVal.obj [("steps".toList, JVal.arr
        [JVal.obj [("action".toList, JVal.str "uniprot".toList)],
         JVal.obj [("action".toList, JVal.str "kegg".toList),
                   ("params".toList, JVal.obj
                      [("function".toList, JVal.str "bogus".toList)])]])])
      = some ((([JVal.obj [("action".toList, JVal.str "uniprot".toList)],
                 JVal.obj [("action".toList, JVal.str "kegg".toList),
                           ("params".toList, JVal.obj
                              [("function".toList, JVal.str "bogus".toList)])]].map
                  (fun s => ((execStep dummyAdapter s).getD ([], [])).1)).flatten,
              ([JVal.obj [("action".toList, JVal.str "uniprot".toList)],
                JVal.obj [("action".toList, JVal.str "kegg".toList),
                          ("params".toList, JVal.obj
                             [("function".toList, JVal.str "bogus".toList)])]].map
                  (fun s => ((execStep dummyAdapter s).getD ([], [])).2)).flatten)) :=
  C8_single_ordered_pass dummyAdapter _ _
    (fun s => (execStep dummyAdapter s).getD ([], [])) rfl
    (by
      intro s hs
      simp only [List.mem_cons, List.not_mem_nil, or_false] at hs
      rcases hs with rfl | rfl <;> rfl)

/-- C9 (confirmed): a kegg `get_pathway_proteins` step with a truthy
`pathway_id` invokes the adapter once and records `protein_count` as the full
number N of returned records while storing only the first `min N 5` of them in
`top_proteins`. -/
theorem C9_top_proteins_truncated (ad : Adapter) (skvs ps : List (Str × JVal))
    (a f : Str) (pid : JVal)
    (ha : (pyGet skvs "action".toList).getD (.str []) = .str a)
    (hk : pyLower a = sKegg)
    (hp : (pyGet skvs "params".toList).getD (.obj []) = .obj ps)
    (hf : (pyGet ps "function".toList).getD (.str []) = .str f)
    (hfk : pyLower f = sGetPathwayProteins)
    (hpid : pyGet ps "pathway_id".toList = some pid)
    (ht : pyTruthy pid = true) :
    execStep ad (.obj skvs)
      = some ([JVal.obj
          [("pathway_id".toList, pid),
           ("protein_count".toList, .num (natToDec
              (ad.get_pathway_proteins pid
                ((pyGet ps "organism".toList).getD (.str "hsa".toList))).length)),
           ("top_proteins".toList, .arr
              ((ad.get_pathway_proteins pid
                ((pyGet ps "organism".toList).getD (.str "hsa".toList))).take 5))]],
         [AdapterCall.get_pathway_proteins pid
            ((pyGet ps "organism".toList).getD (.str "hsa".toList))])
    ∧ ((ad.get_pathway_proteins pid
          ((pyGet ps "organism".toList).getD (.str "hsa".toList))).take 5).length
        = min (ad.get_pathway_proteins pid
            ((pyGet ps "organism".toList).getD (.str "hsa".toList))).length 5 := by
  constructor
  · rw [execStep_obj ad skvs ps a f ha hp hf, hk, hfk]
    unfold execStepCore
    rw [if_pos rfl, if_neg (by decide), if_pos rfl]
    unfold execKeggGetProteins
    dsimp only
    rw [hpid]
    simp only [ht, Bool.not_true, Bool.false_eq_true, if_false]
  · rw [List.length_take]
    exact Nat.min_comm 5 _

/-- Witness for C9: with an adapter returning seven protein records, the step
records `protein_count = 7` but keeps only the first five records, and
`min 7 5 = 5`. -/
theorem C9_top_proteins_truncated_witness :
    execStep sevenAdapter (JVal.obj [("action".toList, JVal.str "kegg".toList),
        ("params".toList, JVal.obj
           [("function".toList, JVal.str "get_pathway_proteins".toList),
            ("pathway_id".toList, JVal.str "hsa04210".toList)])])
      = some ([JVal.obj
          [("pathway_id".toList, JVal.str "hsa04210".toList),
           ("protein_count".toList, JVal.num (natToDec
              (sevenAdapter.get_pathway_proteins (JVal.str "hsa04210".toList)
                ((pyGet [("function".toList, JVal.str "get_pathway_proteins".toList),
                         ("pathway_id".toList, JVal.str "hsa04210".toList)]
                    "organism".toList).getD (.str "hsa".toList))).length)),
           ("top_proteins".toList, JVal.arr
              ((sevenAdapter.get_pathway_proteins (JVal.str "hsa04210".toList)
                ((pyGet [("function".toList, JVal.str "get_pathway_proteins".toList),
                         ("pathway_id".toList, JVal.str "hsa04210".toList)]
                    "organism".toList).getD (.str "hsa".toList))).take 5))]],
         [AdapterCall.get_pathway_proteins (JVal.str "hsa04210".toList)
            ((pyGet [("function".toList, JVal.str "get_pathway_proteins".toList),
                     ("pathway_id".toList, JVal.str "hsa04210".toList)]
                "organism".toList).getD (.str "hsa".toList))])
    ∧ ((sevenAdapter.get_pathway_proteins (JVal.str "hsa04210".toList)
          ((pyGet [("function".toList, JVal.str "get_pathway_proteins".toList),
                   ("pathway_id".toList, JVal.str "hsa04210".toList)]
              "organism".toList).getD (.str "hsa".toList))).take 5).length
        = min (sevenAdapter.get_pathway_proteins (JVal.str "hsa04210".toList)
            ((pyGet [("function".toList, JVal.str "get_pathway_proteins".toList),
                     ("pathway_id".toList, JVal.str "hsa04210".toList)]
                "organism".toList).getD (.str "hsa".toList))).length 5 :=
  C9_top_proteins_truncated sevenAdapter
    [("action".toList, JVal.str "kegg".toList),
     ("params".toList, JVal.obj
        [("function".toList, JVal.str "get_pathway_proteins".toList),
         ("pathway_id".toList, JVal.str "hsa04210".toList)])]
    [("function".toList, JVal.str "get_pathway_proteins".toList),
     ("pathway_id".toList, JVal.str "hsa04210".toList)]
    "kegg".toList "get_pathway_proteins".toList (JVal.str "hsa04210".toList)
    rfl rfl rfl rfl rfl rfl rfl

/-- C7 (confirmed): matching is case-insensitive — replacing any one step's
`action` value and its `params["function"]` value by strings that agree after
lower-casing leaves the result of `execute_bio_plan` unchanged, because the
executor lower-cases both fields before matching. -/
theorem C7_case_insensitive_matching (ad : Adapter) (kvs : List (Str × JVal))
    (steps : List JVal) (i : Nat) (skvs ps : List (Str × JVal)) (a a' f f' : Str)
    (hsteps : (pyGet kvs "steps".toList).getD (.arr []) = .arr steps)
    (hstep : steps[i]? = some (.obj skvs))
    (ha : (pyGet skvs "action".toList).getD (.str []) = .str a)
    (hp : (pyGet skvs "params".toList).getD (.obj []) = .obj ps)
    (hf : (pyGet ps "function".toList).getD (.str []) = .str f)
    (ha' : pyLower a' = pyLower a) (hf' : pyLower f' = pyLower f) :
    execute_bio_plan ad (.obj (setKV kvs "steps".toList (.arr (steps.set i
        (.obj (setKV (setKV skvs "params".toList
          (.obj (setKV ps "function".toList (.str f')))) "action".toList (.str a')))))))
      = execute_bio_plan ad (.obj kvs) := by
  have hvar := execStep_case_variant ad skvs ps a a' f f' ha hp hf ha' hf'
  have hL : (pyGet (setKV kvs "steps".toList (.arr (steps.set i
      (.obj (setKV (setKV skvs "params".toList
        (.obj (setKV ps "function".toList (.str f')))) "action".toList (.str a'))))))
      "steps".toList).getD (.arr [])
      = .arr (steps.set i (.obj (setKV (setKV skvs "params".toList
          (.obj (setKV ps "function".toList (.str f')))) "action".toList (.str a')))) := by
    rw [pyGet_setKV_self]
    rfl
  rw [exec_plan_steps ad _ _ hL, exec_plan_steps ad kvs steps hsteps]
  exact execSteps_set ad steps i _ (.obj skvs) hstep hvar

/-- Witness for C7: writing a plan's single step with `"KEGG"` and
`"Get_Pathway_ID"` instead of `"kegg"` and `"get_pathway_id"` leaves the
execution result unchanged. -/
theorem C7_case_insensitive_matching_witness :
    execute_bio_plan dummyAdapter (JVal.obj (setKV
        [("steps".toList, JVal.arr
           [JVal.obj [("action".toList, JVal.str "KEGG".toList),
                      ("params".toList, JVal.obj
                         [("function".toList, JVal.str "Get_Pathway_ID".toList),
                          ("pathway_name".toList, JVal.str "apoptosis".toList)])]])]
        "steps".toList (JVal.arr ([JVal.obj [("action".toList, JVal.str "KEGG".toList),
              ("params".toList, JVal.obj
                 [("function".toList, JVal.str "Get_Pathway_ID".toList),
                  ("pathway_name".toList, JVal.str "apoptosis".toList)])]].set 0
          (JVal.obj (setKV (setKV
              [("action".toList, JVal.str "KEGG".toList),
               ("params".toList, JVal.obj
                  [("function".toList, JVal.str "Get_Pathway_ID".toList),
                   ("pathway_name".toList, JVal.str "apoptosis".toList)])]
              "params".toList (JVal.obj (setKV
                [("function".toList, JVal.str "Get_Pathway_ID".toList),
                 ("pathway_name".toList, JVal.str "apoptosis".toList)]
                "function".toList (JVal.str "get_pathway_id".toList))))
              "action".toList (JVal.str "kegg".toList)))))))
      = execute_bio_plan dummyAdapter (JVal.obj
          [("steps".toList, JVal.arr
             [JVal.obj [("action".toList, JVal.str "KEGG".toList),
                        ("params".toList, JVal.obj
                           [("function".toList, JVal.str "Get_Pathway_ID".toList),
                            ("pathway_name".toList, JVal.str "apoptosis".toList)])]])]) :=
  C7_case_insensitive_matching dummyAdapter _ _ 0 _ _
    "KEGG".toList "kegg".toList "Get_Pathway_ID".toList "get_pathway_id".toList
    rfl rfl rfl rfl rfl (by decide) (by decide)

theorem pyFindAux_append_head (c : Char) :
    ∀ (p q : Str), c ∉ p → q.head? = some c →
      pyFindAux c (p ++ q) = some p.length := by
  intro p
  induction p with
  | nil =>
    intro q hp hq
    cases q with
    | nil => exact absurd hq (by simp)
    | cons b t =>
      simp only [List.head?_cons, Option.some.injEq] at hq
      subst hq
      simp [pyFindAux]
  | cons x t ih =>
    intro q hp hq
    simp only [List.mem_cons, not_or] at hp
    obtain ⟨h1, h2⟩ := hp
    simp only [List.cons_append, pyFindAux, List.append_eq]
    rw [if_neg (fun hh => h1 hh.symm), ih q h2 hq]
    simp

/-- C4 (corrected): leading prose before the JSON body is tolerated — if the
response is prose containing no brace followed by a string that `json.loads`
accepts (an object, so it starts with a brace), `generate_bio_plan` returns
exactly that parsed object.  Trailing prose after the JSON body is NOT
tolerated (see the counterexample). -/
theorem C4_leading_prose_parsed (p j : Str) (v : JVal)
    (hp : '\x7b' ∉ p) (hj : j.head? = some '\x7b') (hv : json_loads j = some v) :
    generate_bio_plan (p ++ j) = some v := by
  unfold generate_bio_plan extractJson pyFind
  rw [pyFindAux_append_head '\x7b' p j hp hj]
  dsimp only
  unfold pySliceFrom
  rw [if_neg (by exact not_lt.mpr (Int.natCast_nonneg _))]
  have hn : ((p.length : Int)).toNat = p.length := by omega
  rw [hn, List.drop_left]
  exact hv

/-- Witness for C4: prose followed by a steps object parses to that object. -/
theorem C4_leading_prose_parsed_witness :
    generate_bio_plan ("Sure, here it is: ".toList ++ "\x7b\"steps\": []\x7d".toList)
      = some (JVal.obj [("steps".toList, JVal.arr [])]) :=
  C4_leading_prose_parsed "Sure, here it is: ".toList "\x7b\"steps\": []\x7d".toList
    (JVal.obj [("steps".toList, JVal.arr [])]) (by decide) rfl rfl

/-- Counterexample to C4 as stated: the JSON object is well-formed on its own,
yet with prose after the JSON body `generate_bio_plan` fails (json.loads
rejects the extra data), returning a null plan. -/
theorem C4_counterexample_trailing_prose_fails :
    json_loads ("\x7b\"steps\": []\x7d".toList)
      = some (JVal.obj [("steps".toList, JVal.arr [])])
    ∧ generate_bio_plan ("\x7b\"steps\": []\x7d I hope this helps!".toList) = none :=
  ⟨rfl, rfl⟩

/-- C5 (corrected): the plan is null exactly when `json.loads` fails on the
extracted substring; the substring starts at the first brace when one exists,
and otherwise is the Python slice `output[-1:]` — the LAST character of the
response, not a guaranteed failure — and no `{steps: [...]}` shape check is
performed. -/
theorem C5_null_iff_loads_fails (out : Str) :
    (generate_bio_plan out = none ↔ json_loads (extractJson out) = none)
    ∧ (pyFindAux '\x7b' out = none → extractJson out = out.drop (out.length - 1))
    ∧ (∀ i, pyFindAux '\x7b' out = some i → extractJson out = out.drop i) := by
  refine ⟨Iff.rfl, ?_, ?_⟩
  · intro h
    unfold extractJson pyFind
    rw [h]
    dsimp only
    unfold pySliceFrom
    rw [if_pos (by decide)]
    congr 1
    omega
  · intro i h
    unfold extractJson pyFind
    rw [h]
    dsimp only
    unfold pySliceFrom
    rw [if_neg (by exact not_lt.mpr (Int.natCast_nonneg _))]
    simp

/-- Witness for C5: on a response with no brace the extracted substring is the
last character; on one with a brace at index 4 it is the tail from index 4. -/
theorem C5_null_iff_loads_fails_witness :
    (generate_bio_plan ("and 42".toList) = none
        ↔ json_loads (extractJson ("and 42".toList)) = none)
    ∧ extractJson ("and 42".toList)
        = ("and 42".toList).drop (("and 42".toList).length - 1)
    ∧ extractJson ("say \x7b\"steps\": []\x7d".toList)
        = ("say \x7b\"steps\": []\x7d".toList).drop 4 :=
  ⟨(C5_null_iff_loads_fails ("and 42".toList)).1,
   (C5_null_iff_loads_fails ("and 42".toList)).2.1 rfl,
   (C5_null_iff_loads_fails ("say \x7b\"steps\": []\x7d".toList)).2.2 4 rfl⟩

/-- Counterexample to C5 as stated: a response with no brace whose last
character is a digit does NOT fail — the plan is the parsed digit; and a
well-formed object without a `steps` key also yields a non-null plan, so no
`{steps: [...]}` shape check happens. -/
theorem C5_counterexample_no_brace_still_parses :
    pyFindAux '\x7b' ("The answer is 7".toList) = none
    ∧ generate_bio_plan ("The answer is 7".toList) = some (JVal.num "7".toList)
    ∧ generate_bio_plan ("\x7b\"task\": \"x\"\x7d".toList)
        = some (JVal.obj [("task".toList, JVal.str "x".toList)]) :=
  ⟨rfl, rfl, rfl⟩

/-- C10 (confirmed): `get_proteins_that_are_in_too_lists` is commutative in
its two list arguments, every member of the result is the strip-and-lower
normalization of an entry occurring in BOTH input lists, and the result (a
set) has no duplicates. -/
theorem C10_intersection_properties (l1 l2 : List Str) :
    get_proteins_that_are_in_too_lists l1 l2 = get_proteins_that_are_in_too_lists l2 l1
    ∧ (∀ x, x ∈ get_proteins_that_are_in_too_lists l1 l2 ↔
        ((∃ y ∈ l1, normalizeProtein y = x) ∧ (∃ y ∈ l2, normalizeProtein y = x)))
    ∧ (get_proteins_that_are_in_too_lists l1 l2).val.Nodup := by
  refine ⟨?_, ?_, (get_proteins_that_are_in_too_lists l1 l2).nodup⟩
  · unfold get_proteins_that_are_in_too_lists
    exact Finset.inter_comm _ _
  · intro x
    unfold get_proteins_that_are_in_too_lists
    simp [Finset.mem_inter, List.mem_toFinset, List.mem_map]

theorem strEndsWith_decomp (c : Char) :
    ∀ (s : Str), strEndsWith s c = true → ∃ m, s = m ++ [c] := by
  intro s
  induction s with
  | nil =>
    intro h
    exact absurd h (by simp [strEndsWith])
  | cons a t ih =>
    intro h
    cases t with
    | nil =>
      have ha : a = c := by simpa [strEndsWith] using h
      exact ⟨[], by rw [ha]; rfl⟩
    | cons b t2 =>
      have h2 : strEndsWith (b :: t2) c = true := by
        simpa [strEndsWith, List.getLast?_cons_cons] using h
      obtain ⟨m, hm⟩ := ih h2
      exact ⟨a :: m, by rw [hm]; rfl⟩

theorem strEndsWith_concat (x : Str) (c : Char) : strEndsWith (x ++ [c]) c = true := by
  simp [strEndsWith, List.getLast?_concat]

theorem normDesc_ends (d : Str) :
    strEndsWith (if strEndsWith d '.' then d else d ++ ['.']) '.' = true := by
  by_cases h : strEndsWith d '.'
  · simp [h]
  · simp only [h, if_false]
    exact strEndsWith_concat d '.'

theorem enrichment_ends_dot (db r : Str)
    (h : lookupStr STEPS_ENRICHMENT db = some r) : strEndsWith r '.' = true := by
  simp only [STEPS_ENRICHMENT, lookupStr] at h
  repeat' split at h
  all_goals first
  | exact Option.noConfusion h
  | (rw [← Option.some.inj h]; decide)

theorem pyLStrip_cons_nonspace (c : Char) (t : Str) (h : isPySpace c = false) :
    pyLStrip (c :: t) = c :: t := by
  simp [pyLStrip, List.dropWhile_cons, h]

theorem pyRStrip_append_nonspace (x : Str) (c : Char) (h : isPySpace c = false) :
    pyRStrip (x ++ [c]) = x ++ [c] := by
  simp [pyRStrip, List.dropWhile_cons, h]

theorem pyRStrip_append_space (x : Str) (s : Char) (h : isPySpace s = true) :
    pyRStrip (x ++ [s]) = pyRStrip x := by
  simp [pyRStrip, List.dropWhile_cons, h]

theorem stepHeader_eq (i : Nat) (d : Str) :
    stepHeader i d
      = '*' :: ("*Step ".toList ++ natToDec i ++ " – Querying ".toList ++ d ++ "**\n".toList) :=
  rfl

theorem pyStrip_step_text_none (t m : Str) :
    pyStrip (('*' :: t) ++ (m ++ ['.']) ++ [' '] ++ []) = ('*' :: t) ++ (m ++ ['.']) := by
  unfold pyStrip
  rw [show ('*' :: t) ++ (m ++ ['.']) ++ [' '] ++ [] = '*' :: (t ++ (m ++ ['.']) ++ [' ']) by simp]
  rw [pyLStrip_cons_nonspace _ _ (by decide)]
  rw [show '*' :: (t ++ (m ++ ['.']) ++ [' ']) = ('*' :: (t ++ m ++ ['.'])) ++ [' '] by simp]
  rw [pyRStrip_append_space _ _ (by decide)]
  rw [show '*' :: (t ++ m ++ ['.']) = ('*' :: (t ++ m)) ++ ['.'] by simp]
  rw [pyRStrip_append_nonspace _ _ (by decide)]
  simp

theorem pyStrip_step_text_some (t m rm : Str) :
    pyStrip (('*' :: t) ++ (m ++ ['.']) ++ [' '] ++ (rm ++ ['.']))
      = ('*' :: t) ++ (m ++ ['.']) ++ (' ' :: (rm ++ ['.'])) := by
  unfold pyStrip
  rw [show ('*' :: t) ++ (m ++ ['.']) ++ [' '] ++ (rm ++ ['.'])
      = '*' :: (t ++ (m ++ ['.']) ++ [' '] ++ (rm ++ ['.'])) by simp]
  rw [pyLStrip_cons_nonspace _ _ (by decide)]
  rw [show '*' :: (t ++ (m ++ ['.']) ++ [' '] ++ (rm ++ ['.']))
      = ('*' :: (t ++ (m ++ ['.']) ++ [' '] ++ rm)) ++ ['.'] by simp]
  rw [pyRStrip_append_nonspace _ _ (by decide)]
  simp

/-- C6 (confirmed): `explain_personalized_steps` returns the fixed no-steps
message on a zero-step plan; and each rendered step is the fixed heading, the
stripped description with a terminal period appended exactly when it lacked
one, and — exactly when the lower-cased (stripped) tool name has an entry in
`STEPS_ENRICHMENT` — a space and that static rationale; a tool name with no
table entry gets no appended rationale. -/
theorem C6_render_shape :
    (∀ (kvs : List (Str × JVal)),
        (pyGet kvs "steps".toList).getD (.arr []) = .arr [] →
        explain_personalized_steps (.obj kvs) = some noStepsMsg)
    ∧ (∀ (i : Nat) (skvs : List (Str × JVal)) (a0 d0 : Str),
        (pyGet skvs "action".toList).getD (.str []) = .str a0 →
        (pyGet skvs "description".toList).getD (.str []) = .str d0 →
        explainStep i (.obj skvs)
          = some (stepHeader i (pyCapitalize (pyLower (pyStrip a0)))
              ++ (if strEndsWith (pyStrip d0) '.' then pyStrip d0 else pyStrip d0 ++ ['.'])
              ++ (match lookupStr STEPS_ENRICHMENT (pyLower (pyStrip a0)) with
                  | some r => ' ' :: r
                  | none => []))) := by
  constructor
  · intro kvs hsteps
    unfold explain_personalized_steps
    dsimp only
    rw [hsteps]
    rfl
  · intro i skvs a0 d0 ha hd
    obtain ⟨dm, hdm⟩ := strEndsWith_decomp '.'
      (if strEndsWith (pyStrip d0) '.' then pyStrip d0 else pyStrip d0 ++ ['.'])
      (normDesc_ends (pyStrip d0))
    cases hlook : lookupStr STEPS_ENRICHMENT (pyLower (pyStrip a0)) with
    | none =>
      simp only [explainStep, ha, hd, hlook, Option.getD_none, List.isEmpty_nil,
        Bool.not_true, Bool.false_and, Bool.false_eq_true, if_false]
      rw [hdm, stepHeader_eq]
      rw [pyStrip_step_text_none]
      simp
    | some r =>
      have hdot := enrichment_ends_dot (pyLower (pyStrip a0)) r hlook
      obtain ⟨rm, hrm⟩ := strEndsWith_decomp '.' r hdot
      simp only [explainStep, ha, hd, hlook, Option.getD_some, hdot,
        Bool.not_true, Bool.and_false, Bool.false_eq_true, if_false]
      rw [hdm, hrm, stepHeader_eq]
      rw [pyStrip_step_text_some]

/-- Witness for C6: a plan with an empty steps array renders to the fixed
message, and a concrete step with tool name "KEGG" and a period-less
description renders as heading, period-normalized description and the kegg
rationale. -/
theorem C6_render_shape_witness :
    explain_personalized_steps (JVal.obj [("steps".toList, JVal.arr [])]) = some noStepsMsg
    ∧ explainStep 1 (JVal.obj
        [("action".toList, JVal.str "KEGG".toList),
         ("description".toList, JVal.str "Map the pathway name to an id".toList)])
      = some (stepHeader 1 (pyCapitalize (pyLower (pyStrip "KEGG".toList)))
          ++ (if strEndsWith (pyStrip "Map the pathway name to an id".toList) '.'
              then pyStrip "Map the pathway name to an id".toList
              else pyStrip "Map the pathway name to an id".toList ++ ['.'])
          ++ (match lookupStr STEPS_ENRICHMENT (pyLower (pyStrip "KEGG".toList)) with
              | some r => ' ' :: r
              | none => [])) :=
  ⟨C6_render_shape.1 [("steps".toList, JVal.arr [])] rfl,
   C6_render_shape.2 1
     [("action".toList, JVal.str "KEGG".toList),
      ("description".toList, JVal.str "Map the pathway name to an id".toList)]
     "KEGG".toList "Map the pathway name to an id".toList rfl rfl⟩
